/-
Verification of the pdf.js form-scripting engine (scripting_api + sandbox)
against its natural-language specification.

The JavaScript sources are shallowly embedded: JS strings are Lean `String`,
JS numbers appearing in the format mini-languages are exact rationals `ℚ`,
a JS value that may be `null` is an `Option`, and a thrown JS error is an
`Except.error` / `none`.  Document-supplied action scripts are embedded as
opaque state transformers that can read and write the shared event and the
field values and can emit host messages, but cannot retract a message that
was already sent (a `send` crosses the sandbox boundary immediately).
-/
import Mathlib

namespace PdfScripting

/-! ## Host messages

`Update(objectId, property, value)` is sent when a public-property set
succeeds on a wrapped object; `Error(fieldId, trigger)` is sent when a
document-supplied action throws (spec section 4.4, message protocol). -/

inductive Msg where
  | update (id prop : String) (value : Option String)
  | error (id trigger : String)
deriving DecidableEq, Repr

/-! ## The shared Event object (src/scripting_api/event.js, class Event)

The `rich*` array-valued fields of the JS constructor are never read by the
dispatcher and are elided.  `source` and `target` hold capability-wrapped
object references; they are modelled by the object's id. -/

structure SEvent where
  change : String
  commitKey : Nat
  fieldFull : Bool
  keyDown : Bool
  modifier : Bool
  name : String
  rc : Bool
  selEnd : Nat
  selStart : Nat
  shift : Bool
  source : Option String
  target : Option String
  targetName : String
  type : String
  value : Option String
  willCommit : Bool
deriving DecidableEq, Repr

/-- The inbound event payload (`baseEvent`) handed to
`EventDispatcher.dispatch` by the host.  It carries the target field id and
the raw event data; the JS `Event` constructor reads `data.source` and
`data.target` but the host payload never carries them, so they are omitted
here and default to `null` below. -/
structure BaseEvent where
  id : String
  name : String
  change : String := ""
  commitKey : Nat := 0
  fieldFull : Bool := false
  keyDown : Bool := false
  modifier : Bool := false
  selEnd : Nat := 0
  selStart : Nat := 0
  shift : Bool := false
  targetName : String := ""
  value : Option String := none
  willCommit : Bool := false
deriving DecidableEq, Repr

/-- JS `data.value || null`: the empty string is falsy, so it collapses to
`null`; any other string is kept. -/
def jsOrNull : Option String → Option String
  | some "" => none
  | v => v

/-- The JS `Event` constructor (event.js, lines 16-39): `rc` starts `true`,
`type` is `"Field"`, `value` is `data.value || null`. -/
def SEvent.ofData (data : BaseEvent) : SEvent where
  change := data.change
  commitKey := data.commitKey
  fieldFull := data.fieldFull
  keyDown := data.keyDown
  modifier := data.modifier
  name := data.name
  rc := true
  selEnd := data.selEnd
  selStart := data.selStart
  shift := data.shift
  source := none
  target := none
  targetName := data.targetName
  type := "Field"
  value := jsOrNull data.value
  willCommit := data.willCommit

/-! ## Sandbox state and document actions

`Inner` is the part of the sandbox state a document script can touch: the
shared event (`document._event`) and the live values of the registered
field objects.  `St` adds the log of messages already sent to the host;
a script cannot rewrite that log, it can only cause more messages. -/

structure Inner where
  event : SEvent
  vals : List (String × Option String)
deriving DecidableEq

structure St where
  inner : Inner
  msgs : List Msg
deriving DecidableEq

/-- A document-supplied action script: it transforms the script-visible
state, emits a batch of host messages (e.g. by assigning through a wrapped
object), and reports whether it terminated by throwing. -/
def JSAction : Type := Inner → Inner × List Msg × Bool

/-- A field object's `_actions` map: trigger name → parsed action list
(field.js, lines 74-79).  An absent key models `!(name in actions)`. -/
def FieldActions : Type := List (String × List JSAction)

/-- The `EventDispatcher` instance data (event.js, lines 41-46): the flat
calculation order and the registry `_objects` mapping field id to the
`{obj, wrapped}` pair; the mutable `obj.value` lives in `Inner.vals`, so
the registry keeps only the per-field actions. -/
structure Dispatcher where
  calculationOrder : List String
  objects : List (String × FieldActions)

def St.withEvent (s : St) (f : SEvent → SEvent) : St :=
  { s with inner := { s.inner with event := f s.inner.event } }

/-- `target.obj.value` (a field that was never registered reads as `null`). -/
def getValue (s : St) (id : String) : Option String :=
  (s.inner.vals.lookup id).getD none

/-- `obj.value = v`: a direct write on the raw object; no message is sent. -/
def setValue (s : St) (id : String) (v : Option String) : St :=
  { s with inner := { s.inner with
      vals := s.inner.vals.map fun p => if p.1 = id then (p.1, v) else p } }

/-- Modelled from the spec: `wrapped.value = v`, an assignment through the
capability proxy (`scripting_api/proxy.js` is not under src/).  Spec 4.2:
a public-property set mutates the object and "emits a host update message
carrying (objectId, property, value)". -/
def setWrappedValue (s : St) (id : String) (v : Option String) : St :=
  { (setValue s id v) with msgs := s.msgs ++ [Msg.update id "value" v] }

/-- One action invocation together with the per-action catch: the action's
own messages are already out; if it threw, exactly one `Error` naming the
field id and the trigger is sent and execution continues. -/
def runOneAction (id trigger : String) (s : St) (a : JSAction) : St :=
  match a s.inner with
  | (inner, out, threw) =>
    if threw then { inner, msgs := s.msgs ++ out ++ [Msg.error id trigger] }
    else { inner, msgs := s.msgs ++ out }

def runActionsList (id trigger : String) (s : St) (acts : List JSAction) : St :=
  acts.foldl (runOneAction id trigger) s

/-- Modelled from the spec: `PDFObject._runActions`
(`scripting_api/pdf_object.js` is not under src/; only its caller
`EventDispatcher.runActions` is).  Spec 4.3.7 and section 7: the object runs
its action list for the event's trigger name; a script exception is "caught
at the single-action granularity, reported via an `Error` message
(including the field id and trigger name), and does not abort sibling
actions"; with no actions for the trigger it is a silent no-op.  The
returned boolean tells the caller whether any action list was found. -/
def runActionsObj (fa : FieldActions) (id : String) (s : St) : St × Bool :=
  match fa.lookup s.inner.event.name with
  | none => (s, false)
  | some acts => (runActionsList id s.inner.event.name s acts, true)

/-- `EventDispatcher.runActions` (event.js, lines 82-91): point the shared
event at the given source/target, set its trigger name, reset `rc` to
`true`, then let the target object run its actions; return `true` when the
target had no actions for the trigger, else the resulting `event.rc`. -/
def runActions (source target : String × FieldActions) (eventName : String)
    (s : St) : St × Bool :=
  let s := s.withEvent fun e =>
    { e with source := some source.1, target := some target.1,
             name := eventName, rc := true }
  match runActionsObj target.2 target.1 s with
  | (s, false) => (s, true)
  | (s, true) => (s, s.inner.event.rc)

/-- The body of the `for (const targetId of this._calculationOrder)` loop in
`EventDispatcher.runCalculate` (event.js, lines 98-119): skip an id that is
not in the registry; otherwise seed `event.value` from the target's current
value, run the target's `Calculate` actions (source = the originating
field), then the target's own `Validate` actions; if `rc` is false skip the
rest for this target; otherwise commit a changed value to the raw object,
run `Format`, and push a changed value to the wrapped object. -/
def calculateTarget (D : Dispatcher) (source : String × FieldActions)
    (s : St) (targetId : String) : St :=
  match D.objects.lookup targetId with
  | none => s
  | some tfa =>
    let target := (targetId, tfa)
    let oldValue := getValue s targetId
    let s := s.withEvent fun e => { e with value := oldValue }
    let s := (runActions source target "Calculate" s).1
    let s := (runActions target target "Validate" s).1
    if !s.inner.event.rc then s
    else
      let s := if oldValue ≠ s.inner.event.value then
          setValue s targetId s.inner.event.value else s
      let s := (runActions target target "Format" s).1
      if oldValue ≠ s.inner.event.value then
        setWrappedValue s targetId s.inner.event.value else s

/-- `EventDispatcher.runCalculate` (event.js, lines 93-120). -/
def runCalculate (D : Dispatcher) (source : String × FieldActions)
    (s : St) : St :=
  if D.calculationOrder.isEmpty then s
  else D.calculationOrder.foldl (calculateTarget D source) s

/-- `EventDispatcher.runValidation` (event.js, lines 64-80): snapshot the
source's value, run its `Validate` actions; if `rc` is true commit a
changed event value to the raw object (updating the snapshot), run the
Calculate pass, restore `event.value` to the snapshot, run `Format`, and
push a changed value to the wrapped object. -/
def runValidation (D : Dispatcher) (source : String × FieldActions)
    (s : St) : St :=
  let oldValue := getValue s source.1
  let s := (runActions source source "Validate" s).1
  if s.inner.event.rc then
    let ov_s : (Option String) × St :=
      if oldValue ≠ s.inner.event.value then
        (s.inner.event.value, setValue s source.1 s.inner.event.value)
      else (oldValue, s)
    let oldValue := ov_s.1
    let s := ov_s.2
    let s := runCalculate D source s
    let s := s.withEvent fun e => { e with value := oldValue }
    let s := (runActions source source "Format" s).1
    if oldValue ≠ s.inner.event.value then
      setWrappedValue s source.1 s.inner.event.value else s
  else s

/-- JS `name.replace(" ", "")` with a string pattern removes only the first
occurrence of the space. -/
def removeFirstSpace : List Char → List Char
  | [] => []
  | c :: cs => if c = ' ' then cs else c :: removeFirstSpace cs

def jsReplaceFirstSpace (s : String) : String :=
  ⟨removeFirstSpace s.data⟩

/-- `EventDispatcher.dispatch` (event.js, lines 48-62): an unknown id
returns immediately; otherwise build the shared event from the payload
(also stored as `document._event`), run `runValidation` first for a
commit-time `KeyStroke`, then always run the field's own actions for the
space-stripped trigger name. -/
def dispatch (D : Dispatcher) (baseEvent : BaseEvent) (s : St) : St :=
  match D.objects.lookup baseEvent.id with
  | none => s
  | some fa =>
    let name := jsReplaceFirstSpace baseEvent.name
    let source := (baseEvent.id, fa)
    let s := { s with inner := { s.inner with event := SEvent.ofData baseEvent } }
    let s := if name = "KeyStroke" && s.inner.event.willCommit then
        runValidation D source s else s
    (runActions source source name s).1

/-! ## Decimal strings shared by the Util embeddings -/

def digitChar (d : Nat) : Char := Char.ofNat (48 + d)

/-- Decimal digits of a nonnegative integer, most significant first; the
fuel argument (any bound above the value) keeps the recursion structural so
that the kernel can evaluate it. -/
def natDigitsGo : Nat → Nat → List Char
  | 0, _ => []
  | fuel + 1, n =>
    if n < 10 then [digitChar n]
    else natDigitsGo fuel (n / 10) ++ [digitChar (n % 10)]

/-- JS `Number.prototype.toString()` for a nonnegative integer. -/
def natDigits (n : Nat) : List Char := natDigitsGo (n + 1) n

def natToString (n : Nat) : String := ⟨natDigits n⟩

/-- JS `String.prototype.padStart(w, c)`. -/
def padLeft (c : Char) (w : Nat) (s : String) : String :=
  ⟨List.replicate (w - s.length) c ++ s.data⟩

def pad2 (n : Nat) : String := padLeft '0' 2 (natToString n)

/-! ## Util.printd (unnamed/part_001, lines 187-276) -/

/-- The date fields read off the `Date` argument (lines 260-267);
`month` is 0-based as returned by `Date.getMonth()`. -/
structure DateRec where
  year : Nat
  month : Nat
  day : Nat
  dayOfWeek : Nat
  hours : Nat
  minutes : Nat
  seconds : Nat
deriving DecidableEq, Repr

def monthNames : List String :=
  ["January", "February", "March", "April", "May", "June", "July",
   "August", "September", "October", "November", "December"]

def dayNames : List String :=
  ["Sunday", "Monday", "Tuesday", "Wednesday", "Thursday", "Friday",
   "Saturday"]

/-- The `printd` token handlers, listed in the order of the regex
alternation `(mmmm|mmm|mm|m|dddd|ddd|dd|d|yyyy|yy|HH|H|hh|h|MM|M|ss|s|tt|t)`,
which is also the order in which a JS regex tries the alternatives at each
position. -/
def printdHandlers : List (String × (DateRec → String)) :=
  [("mmmm", fun d => monthNames.getD d.month "undefined"),
   ("mmm", fun d => ⟨(monthNames.getD d.month "undefined").data.take 3⟩),
   ("mm", fun d => pad2 (d.month + 1)),
   ("m", fun d => natToString (d.month + 1)),
   ("dddd", fun d => dayNames.getD d.dayOfWeek "undefined"),
   ("ddd", fun d => ⟨(dayNames.getD d.dayOfWeek "undefined").data.take 3⟩),
   ("dd", fun d => pad2 d.day),
   ("d", fun d => natToString d.day),
   ("yyyy", fun d => natToString d.year),
   ("yy", fun d => pad2 (d.year % 100)),
   ("HH", fun d => pad2 d.hours),
   ("H", fun d => natToString d.hours),
   ("hh", fun d => pad2 (d.hours % 12)),
   ("h", fun d => natToString (d.hours % 12)),
   ("MM", fun d => pad2 d.minutes),
   ("M", fun d => natToString d.minutes),
   ("ss", fun d => pad2 d.seconds),
   ("s", fun d => natToString d.seconds),
   ("tt", fun d => if d.hours < 12 then "am" else "pm"),
   ("t", fun d => if d.hours < 12 then "a" else "p")]

def firstPrintdToken (cs : List Char) : Option (String × (DateRec → String)) :=
  printdHandlers.find? fun t => t.1.data.isPrefixOf cs

/-- The replacement pass of `printd`: at each position the first matching
alternative fires; the final alternative `\\.` matches a backslash plus any
character and, the two-character match not being a handler key, is replaced
by `p1.charCodeAt(1)` — the escaped character's numeric char code, coerced
to its decimal string.  Everything else passes through. -/
def printdGo (d : DateRec) : Nat → List Char → List Char
  | 0, _ => []
  | _, [] => []
  | fuel + 1, c :: cs =>
    match firstPrintdToken (c :: cs) with
    | some th => (th.2 d).data ++ printdGo d fuel (cs.drop (th.1.length - 1))
    | none =>
      if c = '\\' then
        match cs with
        | [] => [c]
        | c2 :: cs2 => (natToString c2.toNat).data ++ printdGo d fuel cs2
      else c :: printdGo d fuel cs

def printdMain (d : DateRec) (cFormat : String) : String :=
  ⟨printdGo d cFormat.data.length cFormat.data⟩

/-- `Util.printd`: the three numeric shorthand formats expand to fixed
canonical patterns (lines 188-195). -/
def printd (cFormat : String) (d : DateRec) : String :=
  match cFormat with
  | "0" => printdMain d "D:yyyymmddHHMMss"
  | "1" => printdMain d "yyyy.mm.dd HH:MM:ss"
  | "2" => printdMain d "m/d/yy h:MM:ss tt"
  | _ => printdMain d cFormat

/-! ## Util.scand (unnamed/part_001, lines 362-587) -/

inductive JsError where
  | typeError
  | error (msg : String)
deriving DecidableEq, Repr

/-- The `new Date(year, month, day, hours, minutes, seconds)` result that
`scand` is meant to assemble (month 0-based). -/
structure JsDate where
  year : Nat
  month : Nat
  day : Nat
  hours : Nat
  minutes : Nat
  seconds : Nat
deriving DecidableEq, Repr

/-- The non-shorthand path of `Util.scand`.  The `Util` constructor
initializes `this._scandCache` (line 23); the property `this.scandCache`
read here (lines 372, 555, 558) is never assigned anywhere and is
`undefined`.  In the guard `if (!cFormat in this.scandCache)` the unary `!`
binds tighter than the relational `in`, so the test evaluated is
`(!cFormat) in this.scandCache` — and applying the `in` operator to
`undefined` throws a TypeError at once.  Every call therefore throws before
any pattern compilation or matching; the handler table, the capture-count
check (line 561) and the `Date` assembly (lines 565-586) are dead code and
are not modelled further. -/
def scandMain (cFormat cDate : String) : Except JsError JsDate :=
  Except.error JsError.typeError

/-- `Util.scand`: the three shorthand formats recurse into the canonical
patterns (lines 363-370); every path reaches the throwing guard. -/
def scand (cFormat cDate : String) : Except JsError JsDate :=
  match cFormat with
  | "0" => scandMain "D:yyyymmddHHMMss" cDate
  | "1" => scandMain "yyyy.mm.dd HH:MM:ss" cDate
  | "2" => scandMain "m/d/yy h:MM:ss tt" cDate
  | _ => scandMain cFormat cDate

/-! ## Util.printf, `f` conversions (unnamed/part_001, lines 53-181)

JS numbers are modelled as exact rationals. -/

structure PrintfFlags where
  plus : Bool := false
  space : Bool := false
  zero : Bool := false
  hash : Bool := false
deriving DecidableEq, Repr

/-- `Math.trunc`: round toward zero. -/
def jsTrunc (q : ℚ) : ℤ := if q < 0 then ⌈q⌉ else ⌊q⌋

/-- `Number.prototype.toFixed(f)` on an exact rational: the integer `n`
with `n / 10^f` closest to the value, ties to the larger `n`, printed with
exactly `f` digits after the point (f ≥ 1 in every use below). -/
def jsToFixed (q : ℚ) (f : Nat) : String :=
  let n : ℤ := ⌊q * (10 : ℚ) ^ f + 1 / 2⌋
  let m := n.natAbs
  let core := natToString (m / 10 ^ f) ++ "." ++
    padLeft '0' f (natToString (m % 10 ^ f))
  if n < 0 then "-" ++ core else core

/-- The four locale presets plus the default (lines 124-131):
`(thousandSep, decimalSep)`. -/
def sepPresets (nDecSep : String) : String × String :=
  match nDecSep with
  | "0" => (",", ".")
  | "1" => ("", ".")
  | "2" => (".", ",")
  | "3" => ("", ",")
  | _ => ("'", ".")

/-- The base-1000 chunks of the integer part, least significant first:
`buf` in the `while (true)` grouping loop (lines 160-168). -/
def groupChunksGo : Nat → Nat → List String
  | 0, _ => []
  | fuel + 1, n =>
    if n < 1000 then [natToString n]
    else padLeft '0' 3 (natToString (n % 1000)) :: groupChunksGo fuel (n / 1000)

def groupChunks (n : Nat) : List String := groupChunksGo (n + 1) n

/-- One `%,S F W .P f` conversion of `Util.printf` (the replacer body,
lines 100-179, for `cConvChar === "f"` with an explicit precision — the
case every claim below is about): truncate to an integer part, derive the
decimal part from `(arg - intPart).toFixed(nPrecision)` keeping all but its
first two characters when it is longer than two characters, pick the sign
prefix, group the integer part in base-1000 chunks when a thousands
separator is configured and the integer part reaches 1000, and pad to the
requested width. -/
def printfFloatConv (nDecSep : String) (flags : PrintfFlags)
    (width : Option Nat) (nPrecision : Nat) (arg : ℚ) : String :=
  let intPart : ℤ := jsTrunc arg
  let seps := sepPresets nDecSep
  let thousandSep := seps.1
  let decimalSep := seps.2
  let dp := jsToFixed (arg - (intPart : ℚ)) nPrecision
  let decPart :=
    if dp.length > 2 then decimalSep ++ ⟨dp.data.drop 2⟩
    else if flags.hash then "." else ""
  let signAbs : String × ℤ :=
    if intPart < 0 then ("-", -intPart)
    else if flags.plus then ("+", intPart)
    else if flags.space then (" ", intPart)
    else ("", intPart)
  let intStr :=
    if thousandSep ≠ "" ∧ signAbs.2 ≥ 1000 then
      String.intercalate thousandSep (groupChunks signAbs.2.toNat).reverse
    else natToString signAbs.2.toNat
  let n := signAbs.1 ++ intStr ++ decPart
  match width with
  | some w => padLeft (if flags.zero then '0' else ' ') w n
  | none => n

/-- The numeric value of a decimal digit string (most significant first). -/
def digitsVal (l : List Char) : Nat :=
  l.foldl (fun a c => 10 * a + (c.toNat - 48)) 0

/-- JS `parseFloat` restricted to what the formatted outputs look like:
skip leading spaces, an optional sign, then the longest prefix
`digits [ "." digits ]`; `none` models NaN (no digits at all). -/
def jsParseFloat (s : String) : Option ℚ :=
  let l := s.data.dropWhile (· = ' ')
  let signRest : Bool × List Char :=
    if l.head? = some '-' then (true, l.tail)
    else if l.head? = some '+' then (false, l.tail)
    else (false, l)
  let ds := signRest.2.takeWhile Char.isDigit
  let rest := signRest.2.dropWhile Char.isDigit
  let fs :=
    if rest.head? = some '.' then rest.tail.takeWhile Char.isDigit else []
  if ds = [] ∧ fs = [] then none
  else
    let mag : ℚ :=
      (digitsVal ds : ℚ) + (digitsVal fs : ℚ) / (10 : ℚ) ^ fs.length
    some (if signRest.1 then -mag else mag)

/-! ## Util.printx (unnamed/part_001, lines 278-360) -/

inductive CaseMode where
  | asIs
  | upper
  | lower
deriving DecidableEq, Repr

/-- `handlers = [x => x, x => x.toUpperCase(), x => x.toLowerCase()]`. -/
def applyCase : CaseMode → Char → Char
  | .asIs, c => c
  | .upper, c => c.toUpper
  | .lower, c => c.toLower

def isAlphaJs (c : Char) : Bool :=
  ('a' ≤ c && c ≤ 'z') || ('A' ≤ c && c ≤ 'Z')

def isDigitJs (c : Char) : Bool := '0' ≤ c && c ≤ '9'

def isAlnumJs (c : Char) : Bool := isAlphaJs c || isDigitJs c

/-- The loop of `printx`.  In the source the loop header is
`for (const command in cFormat)`: the `in` form iterates the string's own
enumerable keys — the index strings `"0"`, `"1"`, … — so `command` is an
index string, not a template character.  The commands list below is that
index-string sequence; the switch body is kept verbatim, and the source
cursor `i` is modelled by the not-yet-consumed suffix `rest`. -/
def printxGo : List String → CaseMode → Bool → List Char → List String →
    List String
  | [], _, _, _, buf => buf
  | command :: cmds, caseM, escaped, rest, buf =>
    if escaped then printxGo cmds caseM false rest (buf ++ [command])
    else if rest.isEmpty then buf
    else match command with
      | "?" =>
        match rest with
        | [] => buf
        | c :: t =>
          printxGo cmds caseM false t
            (buf ++ [String.singleton (applyCase caseM c)])
      | "X" =>
        match rest.dropWhile (fun c => !isAlnumJs c) with
        | [] => printxGo cmds caseM false [] buf
        | c :: t =>
          printxGo cmds caseM false t
            (buf ++ [String.singleton (applyCase caseM c)])
      | "A" =>
        match rest.dropWhile (fun c => !isAlphaJs c) with
        | [] => printxGo cmds caseM false [] buf
        | c :: t =>
          printxGo cmds caseM false t
            (buf ++ [String.singleton (applyCase caseM c)])
      | "9" =>
        match rest.dropWhile (fun c => !isDigitJs c) with
        | [] => printxGo cmds caseM false [] buf
        | c :: t =>
          printxGo cmds caseM false t (buf ++ [String.singleton c])
      | "*" =>
        printxGo cmds caseM false []
          (buf ++ rest.map fun c => String.singleton (applyCase caseM c))
      | "\\" => printxGo cmds caseM true rest buf
      | ">" => printxGo cmds .upper false rest buf
      | "<" => printxGo cmds .lower false rest buf
      | "=" => printxGo cmds .asIs false rest buf
      | _ => printxGo cmds caseM false rest (buf ++ [command])

/-- `Util.printx`. -/
def printx (cFormat cSource : String) : String :=
  String.join
    (printxGo ((List.range cFormat.length).map natToString) .asIs false
      cSource.data [])

/-! ## The capability proxy (unnamed/part_007, `objectProxyHandler`) -/

/-- A wrapped object: its model properties, the `_fake` extra-properties
bag, the `_sender` capability and the `_id`. -/
structure PObj where
  props : List (String × Option String)
  fake : List (String × Option String)
  sender : Bool
  id : String
deriving DecidableEq, Repr

/-- Modelled from the spec: `isPublicProperty` (`shared/util.js` is not
under src/; part_007 only imports it).  Spec 4.2 distinguishes "*public*
properties (no leading-underscore-equivalent marker) from private/internal
state" and has `get` return "the public property if present", so a property
is public when the object carries it and its name does not start with
`"_"`. -/
def startsWithUnderscore (s : String) : Bool :=
  match s.data with
  | '_' :: _ => true
  | _ => false

def isPublicProperty (obj : PObj) (prop : String) : Bool :=
  (obj.props.lookup prop).isSome && !startsWithUnderscore prop

/-- A JS property assignment, modelled with lookup semantics: the new
binding shadows any older one. -/
def recordSet (l : List (String × Option String)) (k : String)
    (v : Option String) : List (String × Option String) :=
  (k, v) :: l

/-- `objectProxyHandler.get` (part_007, lines 24-37): the `_fake` bag is
consulted first, then a public property, else `undefined` (`none`). -/
def proxyGet (obj : PObj) (prop : String) : Option (Option String) :=
  match obj.fake.lookup prop with
  | some v => some v
  | none =>
    if isPublicProperty obj prop then obj.props.lookup prop else none

/-- `objectProxyHandler.set` (part_007, lines 39-53): a public property is
written to the object and, when the object has a sender, one update message
`(objectId, {prop: value})` is sent; any other assignment is parked in the
`_fake` bag and nothing is sent. -/
def proxySet (obj : PObj) (prop : String) (v : Option String) :
    PObj × List Msg :=
  if isPublicProperty obj prop then
    ({ obj with props := recordSet obj.props prop v },
     if obj.sender then [Msg.update obj.id prop v] else [])
  else
    ({ obj with fake := recordSet obj.fake prop v }, [])

/-- `objectProxyHandler.has` (part_007, lines 55-57). -/
def proxyHas (obj : PObj) (prop : String) : Bool :=
  (obj.fake.lookup prop).isSome || isPublicProperty obj prop

/-! ## Code generation (src/scripting_api/code_gen.js) -/

/-- JS `String.prototype.includes`. -/
def jsIncludes (s sub : String) : Bool := decide (sub.data <:+: s.data)

/-- `generateRandomString(actions)` (code_gen.js, lines 28-48): draw
64 random bytes, base64 them, and accept the first candidate name that is
not contained in any action source.  The unbounded stream of random draws
is modelled by the `candidates` list; `none` models a run of draws in which
no candidate was accepted (the JS loop would keep drawing). -/
def generateRandomString (candidates : List String) (actions : List String) :
    Option String :=
  candidates.find? fun nameString =>
    actions.all fun action => !jsIncludes action nameString

/-- One field descriptor as fed to `generateCode`: its trigger → script
sources map (only `actions` is read when collecting `allActions`). -/
structure FieldDesc where
  id : String
  actions : List (String × List String)
deriving DecidableEq, Repr

/-- `generateCode` lines 85-86: `Object.values(objects).flat(2)` then
`allObjects.map(obj => Object.values(obj.actions)).flat(2)` — every action
script source of every field. -/
def allActionsOf (objects : List (String × List FieldDesc)) : List String :=
  (((objects.map Prod.snd).flatten).map
    fun obj => obj.actions.map Prod.snd).flatten.flatten

/-- `generateCode` line 87: the dispatch-event entry-point name. -/
def generateCodeDispatchName (candidates : List String)
    (objects : List (String × List FieldDesc)) : Option String :=
  generateRandomString candidates (allActionsOf objects)

/-! ## MessageHandler.handle, Event branch (src/sandbox/sandbox.js) -/

/-- A field instance registered by the `Create` branch. -/
structure MHField where
  value : Option String
  listens : String → Bool

/-- An inbound `Event` message `{name: "Event", id, field, event}`. -/
structure MHEventMsg where
  id : String
  eventName : String
  field : String
  eventValue : Option String

/-- The `"Event"` branch of `MessageHandler.handle` (sandbox.js, lines
82-99).  The body of the guarded `if (obj && obj.real._isListeningFor(…))`
(lines 86-97) builds the proxied event and dispatches the object's
listeners; it is abstracted here as `runBody`, returning the field's new
state and the messages the listeners sent.  After the guarded block, line
99 unconditionally executes `obj.real[message.field] = event.value`: when
the id is not in `this._objects`, `obj` is `undefined` — the `obj &&`
short-circuit skips the block, but line 99 then throws a TypeError reading
`.real` of `undefined`, modelled as `none`. -/
def handleEventMessage (objects : List (String × MHField))
    (runBody : String → MHField → MHField × List Msg) (m : MHEventMsg) :
    Option (List (String × MHField) × List Msg) :=
  match objects.lookup m.id with
  | none => none
  | some obj =>
    let stepped := if obj.listens m.eventName then runBody m.id obj
      else (obj, [])
    let obj2 := if m.field = "value" then
        { stepped.1 with value := m.eventValue } else stepped.1
    some (objects.map (fun p => if p.1 = m.id then (p.1, obj2) else p),
      stepped.2)

/-! ## The legacy App._dispatchEvent (unnamed/part_003, lines 142-192)

An earlier iteration of the dispatcher, cited by the spec's sources: it has
no Validate/Calculate cascade; it looks up the object, runs the action list
for the space-stripped trigger name, and wraps the WHOLE loop in a single
`try`. -/

/-- The payload's event data as read by the local `Event` class of
`App._dispatchEvent` (lines 143-166).  Unlike the event.js `Event`
constructor, `rc` is copied from the payload (`this.rc = data.rc`) — it is
never reset to `true`.  The `rich*` array fields are elided as before. -/
structure LegacyEventData where
  change : String := ""
  commitKey : Nat := 0
  fieldFull : Bool := false
  keyDown : Bool := false
  modifier : Bool := false
  name : String
  rc : Bool
  selEnd : Nat := 0
  selStart : Nat := 0
  shift : Bool := false
  targetName : String := ""
  type : String := ""
  value : Option String := none
  willCommit : Bool := false
deriving DecidableEq, Repr

/-- The inbound `pdfEvent` argument: `{ event, field, id }`. -/
structure LegacyPdfEvent where
  event : LegacyEventData
  field : String
  id : String
deriving DecidableEq, Repr

/-- A document action as run by `App._dispatchEvent`
(`action.bind(this._document)()`): it may mutate the global `event` and
may throw. -/
def LegacyAction : Type := SEvent → SEvent × Bool

/-- `event = new Event(_pdfEvent); event.source = event.target =
obj.wrapped;` (lines 179-180): `rc` is taken from the payload, not reset;
source and target are the dispatched object's wrapped reference (modelled
by its id). -/
def SEvent.ofLegacy (data : LegacyEventData) (objId : String) : SEvent where
  change := data.change
  commitKey := data.commitKey
  fieldFull := data.fieldFull
  keyDown := data.keyDown
  modifier := data.modifier
  name := data.name
  rc := data.rc
  selEnd := data.selEnd
  selStart := data.selStart
  shift := data.shift
  source := some objId
  target := some objId
  targetName := data.targetName
  type := data.type
  value := jsOrNull data.value
  willCommit := data.willCommit

/-- The `try { for (const action of actions[name]) { … } } catch (error)
{ … this._send({id: "error", value}) }` of `App._dispatchEvent` (lines
181-190): ONE `try` wraps the whole loop, so the first throwing action
aborts the remaining sibling actions, and the catch sends a single error
message built from the raw event name and the object id. -/
def legacyRunLoop (id rawName : String) :
    List LegacyAction → SEvent → SEvent × List Msg
  | [], e => (e, [])
  | a :: rest, e =>
    match a e with
    | (e2, true) => (e2, [Msg.error id rawName])
    | (e2, false) => legacyRunLoop id rawName rest e2

/-- `App._dispatchEvent` (unnamed/part_003, lines 142-192): return on an
unregistered id; strip the first space of the trigger name; look up the
object's `_actions`; when the trigger has an action list, build the global
`event` from the payload (no `rc` reset) and run the whole list inside one
`try`.  The result is the final global `event` (`none` when no action list
ran) and the sent messages.  The stray `obj[field] = _pdfEvent.value`
(line 174) writes a property onto the registry's `{obj, wrapped}` wrapper
pair — not onto the field object — and has no host-visible effect, so it
is elided here. -/
def legacyDispatchEvent
    (objects : List (String × List (String × List LegacyAction)))
    (pdfEvent : LegacyPdfEvent) : Option SEvent × List Msg :=
  match objects.lookup pdfEvent.id with
  | none => (none, [])
  | some actions =>
    let name := jsReplaceFirstSpace pdfEvent.event.name
    match actions.lookup name with
    | none => (none, [])
    | some actionList =>
      let e0 := SEvent.ofLegacy pdfEvent.event pdfEvent.id
      let res := legacyRunLoop pdfEvent.id pdfEvent.event.name actionList e0
      (some res.1, res.2)

/-- A legacy action that throws at once. -/
def legacyThrow : LegacyAction := fun e => (e, true)

/-- A legacy sibling action that records having run. -/
def legacySetChange : LegacyAction := fun e => ({ e with change := "ran" }, false)

def legacyObjs : List (String × List (String × List LegacyAction)) :=
  [("f1", [("Calculate", [legacyThrow, legacySetChange])])]

def legacyEvt : LegacyPdfEvent :=
  { event := { name := "Calculate", rc := false, value := some "x" },
    field := "value", id := "f1" }

/-! ## Spec-side restatement of the Calculate pass

These two definitions follow the specification's words (section 4.3, step
6), to be compared with `runCalculate`, which was translated from the
source. -/

/-- Following the spec's words, one target of the Calculate pass: "for each
target field, seed the Event's value from the target's *current* value, run
that target's `Calculate` actions (source = the originating field, target =
this field), then run the target's own `Validate` actions; if `Validate`
rejects (`rc` false) skip the rest of this iteration for that target (value
is not committed and Format does not run); otherwise commit the (possibly
changed) value to the target if different, then run `Format` on the target
and, if Format changed the displayed value, push it to the target's
externally visible value." -/
def specProcessTarget (originating : String × FieldActions)
    (targetId : String) (tfa : FieldActions) (s : St) : St :=
  let seeded := getValue s targetId
  let s := s.withEvent fun e => { e with value := seeded }
  let s := (runActions originating (targetId, tfa) "Calculate" s).1
  let s := (runActions (targetId, tfa) (targetId, tfa) "Validate" s).1
  if s.inner.event.rc then
    let s := if seeded ≠ s.inner.event.value then
        setValue s targetId s.inner.event.value else s
    let s := (runActions (targetId, tfa) (targetId, tfa) "Format" s).1
    if seeded ≠ s.inner.event.value then
      setWrappedValue s targetId s.inner.event.value else s
  else s

/-- Following the spec's words: "iterate the *calculation order* (not a
dependency graph — a flat externally-supplied sequence); skip ids no longer
present" — expressed as an explicit filter against the object registry
followed by per-target processing in list order. -/
def specCalculatePass (D : Dispatcher) (originating : String × FieldActions)
    (s : St) : St :=
  (D.calculationOrder.filter fun tid => (D.objects.lookup tid).isSome).foldl
    (fun s tid =>
      match D.objects.lookup tid with
      | some tfa => specProcessTarget originating tid tfa s
      | none => s) s

/-! ## Concrete fixtures used by the witness theorems -/

/-- A quiescent initial shared event. -/
def event0 : SEvent := SEvent.ofData { id := "", name := "" }

/-- A script that assigns `event.value = "X"`. -/
def actSetX : JSAction := fun innr =>
  ({ innr with event := { innr.event with value := some "X" } }, [], false)

/-- A Validate script that assigns `event.rc = false`. -/
def actReject : JSAction := fun innr =>
  ({ innr with event := { innr.event with rc := false } }, [], false)

/-- A script that throws at once. -/
def actThrow : JSAction := fun innr => (innr, [], true)

def dispAB : Dispatcher :=
  { calculationOrder := ["A", "B"],
    objects := [("A", [("Calculate", [actSetX])]), ("B", [])] }

def srcC : String × FieldActions := ("C", [])

def stAB : St :=
  { inner := { event := event0,
               vals := [("A", some "1"), ("B", some "2"), ("C", some "3")] },
    msgs := [] }

def fieldRej : String × FieldActions := ("R", [("Validate", [actReject])])

def dispRej : Dispatcher :=
  { calculationOrder := ["A"],
    objects := [("R", fieldRej.2), ("A", [("Calculate", [actSetX])])] }

def stRej : St :=
  { inner := { event := { event0 with value := some "new" },
               vals := [("R", some "old"), ("A", some "1")] },
    msgs := [] }

def baseGhost : BaseEvent := { id := "ghost", name := "Mouse Up" }

def ghostMsg : MHEventMsg :=
  { id := "ghost", eventName := "Keystroke", field := "value",
    eventValue := some "x" }

/-- April 15, 1707 3:14:15 (a Friday), the date of the repository's own
unit tests for `printd`/`scand`. -/
def d1707 : DateRec :=
  { year := 1707, month := 3, day := 15, dayOfWeek := 5, hours := 3,
    minutes := 14, seconds := 15 }

def objPub : PObj :=
  { props := [("value", some "v0"), ("_id", none)], fake := [],
    sender := true, id := "f1" }

def cand10 : List String := ["abc", "zq"]

def objs10 : List (String × List FieldDesc) :=
  [("t1", [{ id := "1R", actions := [("Calculate", ["var abcd = 1;"])] }])]

/-! # Theorems -/

theorem boolIfNeg {α : Sort _} (b : Bool) (x y : α) :
    (if !b then x else y) = if b then y else x := by cases b <;> rfl

theorem msgs_prefix_runOneAction (id trigger : String) (s : St)
    (a : JSAction) : s.msgs <+: (runOneAction id trigger s a).msgs := by
  unfold runOneAction
  rcases h : a s.inner with ⟨innr, out, threw⟩
  cases threw
  · exact List.prefix_append s.msgs out
  · exact (List.prefix_append s.msgs out).trans (List.prefix_append _ _)

theorem msgs_prefix_runActionsList (id trigger : String)
    (acts : List JSAction) (s : St) :
    s.msgs <+: (runActionsList id trigger s acts).msgs := by
  induction acts generalizing s with
  | nil => exact List.prefix_rfl
  | cons a t ih =>
    exact (msgs_prefix_runOneAction id trigger s a).trans
      (ih (runOneAction id trigger s a))

theorem msgs_prefix_runActionsObj (fa : FieldActions) (id : String)
    (s : St) : s.msgs <+: (runActionsObj fa id s).1.msgs := by
  unfold runActionsObj
  cases fa.lookup s.inner.event.name
  · exact List.prefix_rfl
  · exact msgs_prefix_runActionsList _ _ _ _

theorem msgs_prefix_runActions (source target : String × FieldActions)
    (eventName : String) (s : St) :
    s.msgs <+: (runActions source target eventName s).1.msgs := by
  have h1 := msgs_prefix_runActionsObj target.2 target.1
    (s.withEvent fun e =>
      { e with source := some source.1, target := some target.1,
               name := eventName, rc := true })
  simp only [runActions]
  split <;> rename_i s2 heq <;> rw [heq] at h1 <;> exact h1

theorem msgs_setValue (s : St) (id : String) (v : Option String) :
    (setValue s id v).msgs = s.msgs := rfl

theorem msgs_setWrappedValue (s : St) (id : String) (v : Option String) :
    (setWrappedValue s id v).msgs = s.msgs ++ [Msg.update id "value" v] :=
  rfl

theorem msgs_prefix_calculateTarget (D : Dispatcher)
    (source : String × FieldActions) (s : St) (tid : String) :
    s.msgs <+: (calculateTarget D source s tid).msgs := by
  rcases h : D.objects.lookup tid with _ | tfa <;>
    simp only [calculateTarget, h]
  · exact List.prefix_rfl
  · have hmsg1 : s.msgs
        = (s.withEvent fun e => { e with value := getValue s tid }).msgs :=
      rfl
    generalize hw : (s.withEvent fun e =>
      { e with value := getValue s tid }) = s1 at hmsg1 ⊢
    have h2 := msgs_prefix_runActions source (tid, tfa) "Calculate" s1
    generalize hc :
      (runActions source (tid, tfa) "Calculate" s1).1 = s2 at h2 ⊢
    have h3 := msgs_prefix_runActions (tid, tfa) (tid, tfa) "Validate" s2
    generalize hv :
      (runActions (tid, tfa) (tid, tfa) "Validate" s2).1 = s3 at h3 ⊢
    have h13 : s.msgs <+: s3.msgs := by rw [hmsg1]; exact h2.trans h3
    split
    · exact h13
    · have h4 : s3.msgs = (if getValue s tid ≠ s3.inner.event.value then
          setValue s3 tid s3.inner.event.value else s3).msgs := by
        split <;> rfl
      generalize hs4 : (if getValue s tid ≠ s3.inner.event.value then
          setValue s3 tid s3.inner.event.value else s3) = s4 at h4 ⊢
      have h5 := msgs_prefix_runActions (tid, tfa) (tid, tfa) "Format" s4
      generalize hf :
        (runActions (tid, tfa) (tid, tfa) "Format" s4).1 = s5 at h5 ⊢
      have h15 : s.msgs <+: s5.msgs := by
        refine (h13.trans ?_).trans h5
        rw [h4]
      split
      · exact h15.trans (List.prefix_append _ _)
      · exact h15

theorem msgs_prefix_calcFold (D : Dispatcher)
    (source : String × FieldActions) (l : List String) (s : St) :
    s.msgs <+: (l.foldl (calculateTarget D source) s).msgs := by
  induction l generalizing s with
  | nil => exact List.prefix_rfl
  | cons tid t ih =>
    exact (msgs_prefix_calculateTarget D source s tid).trans
      (ih (calculateTarget D source s tid))

theorem calculateTarget_eq_spec (D : Dispatcher)
    (source : String × FieldActions) (s : St) (tid : String) :
    calculateTarget D source s tid =
      match D.objects.lookup tid with
      | some tfa => specProcessTarget source tid tfa s
      | none => s := by
  unfold calculateTarget specProcessTarget
  cases D.objects.lookup tid with
  | none => rfl
  | some tfa => simp only [boolIfNeg]

theorem calcFold_eq_spec (D : Dispatcher) (source : String × FieldActions)
    (l : List String) (s : St) :
    l.foldl (calculateTarget D source) s =
      (l.filter fun tid => (D.objects.lookup tid).isSome).foldl
        (fun s tid =>
          match D.objects.lookup tid with
          | some tfa => specProcessTarget source tid tfa s
          | none => s) s := by
  induction l generalizing s with
  | nil => rfl
  | cons tid t ih =>
    cases h : D.objects.lookup tid with
    | none =>
      have h1 : calculateTarget D source s tid = s := by
        rw [calculateTarget_eq_spec, h]
      simp only [List.foldl_cons, List.filter_cons, h, Option.isSome_none,
        Bool.false_eq_true, if_false, h1]
      exact ih s
    | some tfa =>
      have h1 : calculateTarget D source s tid
          = specProcessTarget source tid tfa s := by
        rw [calculateTarget_eq_spec, h]
      simp only [List.foldl_cons, List.filter_cons, h, Option.isSome_some,
        if_true, h1]
      exact ih (specProcessTarget source tid tfa s)

/-- **C1**: the Calculate pass visits targets exactly in the externally
supplied calculation-order list order, skipping any id not present in the
object registry, and for each visited target first seeds the shared event's
value from that target's current value, then runs the target's `Calculate`
actions (source = the originating field, target = this field), then the
target's own `Validate` actions — stated as: `runCalculate` (translated
from the source) equals `specCalculatePass` (written from the spec's
words).  Moreover every host-visible side effect of processing an earlier
slice of the order precedes every side effect of a later slice: the message
log after any prefix of the order is a prefix of the final message log. -/
theorem calculate_pass_order (D : Dispatcher)
    (source : String × FieldActions) (s : St) :
    runCalculate D source s = specCalculatePass D source s ∧
    ∀ l₁ l₂ : List String, D.calculationOrder = l₁ ++ l₂ →
      (l₁.foldl (calculateTarget D source) s).msgs <+:
        (runCalculate D source s).msgs := by
  constructor
  · unfold runCalculate specCalculatePass
    cases h : D.calculationOrder with
    | nil => rfl
    | cons tid t =>
      simp only [List.isEmpty_cons, Bool.false_eq_true, if_false]
      exact calcFold_eq_spec D source (tid :: t) s
  · intro l₁ l₂ h12
    unfold runCalculate
    rcases h : D.calculationOrder with _ | ⟨tid, t⟩
    · rw [h] at h12
      have : l₁ = [] := by
        cases l₁ with
        | nil => rfl
        | cons a b => simp at h12
      subst this
      simp
    · rw [h] at h12
      simp only [List.isEmpty_cons, Bool.false_eq_true, if_false]
      rw [h12, List.foldl_append]
      exact msgs_prefix_calcFold D source l₂ (l₁.foldl (calculateTarget D source) s)

/-- Witness for C1 at a concrete two-field calculation order `["A", "B"]`
with a Calculate action on `A` that assigns `event.value = "X"`. -/
theorem calculate_pass_order_witness :
    runCalculate dispAB srcC stAB = specCalculatePass dispAB srcC stAB ∧
      (["A"].foldl (calculateTarget dispAB srcC) stAB).msgs <+:
        (runCalculate dispAB srcC stAB).msgs :=
  ⟨(calculate_pass_order dispAB srcC stAB).1,
   (calculate_pass_order dispAB srcC stAB).2 ["A"] ["B"] rfl⟩

/-- **C2**: if a field's Validate actions leave `event.rc` false, the
dispatch adds nothing beyond those actions — `runValidation` returns
exactly the post-Validate-actions state, so the event's value is not
written back into the field, the Calculate pass does not run and the
field's Format actions do not run (first conjunct); in particular, when
the Validate scripts did not themselves store to any field, the field's
value still equals its pre-Validate snapshot (second conjunct). -/
theorem validate_reject_blocks_commit (D : Dispatcher)
    (source : String × FieldActions) (s : St)
    (hrc : ((runActions source source "Validate" s).1).inner.event.rc
      = false) :
    runValidation D source s = (runActions source source "Validate" s).1 ∧
    (((runActions source source "Validate" s).1).inner.vals = s.inner.vals →
      getValue (runValidation D source s) source.1
        = getValue s source.1) := by
  have h1 : runValidation D source s
      = (runActions source source "Validate" s).1 := by
    simp only [runValidation, hrc, Bool.false_eq_true, if_false]
  refine ⟨h1, fun hv => ?_⟩
  rw [h1]
  unfold getValue
  rw [hv]

/-- Witness for C2: a field whose Validate action assigns
`event.rc = false`; its value stays at the snapshot `some "old"` and no
Calculate or Format step runs. -/
theorem validate_reject_blocks_commit_witness :
    (runValidation dispRej fieldRej stRej
        = (runActions fieldRej fieldRej "Validate" stRej).1) ∧
      getValue (runValidation dispRej fieldRej stRej) fieldRej.1
        = getValue stRej fieldRej.1 :=
  have h := validate_reject_blocks_commit dispRej fieldRej stRej (by decide)
  ⟨h.1, h.2 (by decide)⟩

/-- **C3** (code bug): in the legacy `App._dispatchEvent` of
unnamed/part_003 — one of the claim's cited sources — the claim fails:
dispatching a `Calculate` event whose first action throws and whose second
action would record itself in `event.change` runs inside ONE `try`, so the
sibling action never runs and exactly one error message is sent (first
conjunct), the event's `rc` is copied from the payload and is `false`
here, never having been reset to `true` before the scripts ran (second
conjunct), and `event.change` is still empty, showing the sibling's write
is absent (third conjunct).  The event.js engine, by contrast, does reset
`rc` to `true` before invoking any step's scripts: `runActions` does not
depend on the incoming `rc` (fourth conjunct). -/
theorem legacy_dispatch_violates_isolation :
    (legacyDispatchEvent legacyObjs legacyEvt
      = (some (SEvent.ofLegacy legacyEvt.event "f1"),
         [Msg.error "f1" "Calculate"])) ∧
    ((SEvent.ofLegacy legacyEvt.event "f1").rc = false) ∧
    ((SEvent.ofLegacy legacyEvt.event "f1").change = "") ∧
    (∀ (source target : String × FieldActions) (eventName : String)
       (s : St) (b : Bool),
       runActions source target eventName
           (s.withEvent fun e => { e with rc := b })
         = runActions source target eventName s) :=
  ⟨rfl, rfl, rfl, fun source target eventName s b => rfl⟩

/-- **C4** (code bug): in `EventDispatcher.dispatch` an unknown field id is
a pure no-op (first conjunct), but in `MessageHandler.handle` the same
inbound event throws a TypeError — line 99 reads `obj.real` with `obj`
undefined — instead of failing silently (second conjunct, at the concrete
message `ghostMsg` against an empty registry; `none` is the thrown
TypeError). -/
theorem unknown_id_noop_vs_handle_throw :
    (∀ (D : Dispatcher) (baseEvent : BaseEvent) (s : St),
       D.objects.lookup baseEvent.id = none → dispatch D baseEvent s = s) ∧
    handleEventMessage [] (fun _ f => (f, [])) ghostMsg = none := by
  refine ⟨fun D baseEvent s h => ?_, rfl⟩
  simp only [dispatch, h]

/-- Witness for C4: the no-op half applied at the concrete dispatcher
`dispAB` and the unregistered id `"ghost"`. -/
theorem unknown_id_noop_witness :
    dispatch dispAB baseGhost stAB = stAB ∧
      handleEventMessage [] (fun _ f => (f, [])) ghostMsg = none :=
  ⟨unknown_id_noop_vs_handle_throw.1 dispAB baseGhost stAB rfl,
   unknown_id_noop_vs_handle_throw.2⟩

/-- **C5** (code bug): the date round-trip `scand(p, printd(p, d)) = d`
fails: `printd` formats the repository's own unit-test date correctly, but
`scand` throws a TypeError on the formatted output instead of returning
the date (see `scandMain`: the `(!cFormat) in this.scandCache` guard
evaluates `in` on `undefined`). -/
theorem scand_printd_roundtrip_throws :
    printd "0" d1707 = "D:17070415031415" ∧
    scand "0" (printd "0" d1707) = Except.error JsError.typeError := by
  exact ⟨by decide, rfl⟩

/-- **C6** (code bug): `util.scand` never reaches the capture-count check,
never raises the `FormatError` and never returns a `Date`: every call, for
every format string and every input, throws a TypeError in the
`(!cFormat) in this.scandCache` guard. -/
theorem scand_always_typeerror (cFormat cDate : String) :
    scand cFormat cDate = Except.error JsError.typeError := by
  unfold scand
  split <;> rfl

/-- **C8** (code bug): `printx` iterates `for (const command in cFormat)`
— the string's index strings, not its characters — so the documented
template state machine is dead code: a literal template character is not
copied (the index string is pushed instead: first two conjuncts), and
only the index string `"9"`, at template position 9, accidentally hits
the digit-consumer case (third conjunct). -/
theorem printx_iterates_indices :
    printx "a" "b" = "0" ∧ printx ">?" "a" = "01" ∧
    printx "0123456789" "x7y" = "0123456787" := by
  refine ⟨by decide, by decide, by decide⟩

/-- **C9**: through the capability proxy, a set mutates the underlying
object's model properties only when the property is public; on an object
with a sender, a public set sends exactly one update message
`(objectId, property, value)` and leaves the `_fake` bag alone; a
non-public set leaves every model property unchanged, parks the value in
the `_fake` bag, sends nothing, and a subsequent get through the proxy
returns the parked value. -/
theorem proxy_set_policy (obj : PObj) (prop : String) (v : Option String)
    (hs : obj.sender = true) :
    (isPublicProperty obj prop = true →
       (proxySet obj prop v).1.props = recordSet obj.props prop v ∧
       (proxySet obj prop v).1.fake = obj.fake ∧
       (proxySet obj prop v).2 = [Msg.update obj.id prop v]) ∧
    (isPublicProperty obj prop = false →
       (proxySet obj prop v).1.props = obj.props ∧
       (proxySet obj prop v).1.fake = recordSet obj.fake prop v ∧
       (proxySet obj prop v).2 = [] ∧
       proxyGet (proxySet obj prop v).1 prop = some v) := by
  constructor
  · intro hpub
    simp [proxySet, hpub, hs]
  · intro hpub
    simp [proxySet, hpub, proxyGet, recordSet, List.lookup]

/-- Witness for C9 on the concrete wrapped object `objPub`: the public
property `"value"` and the ad hoc property `"custom"`. -/
theorem proxy_set_policy_witness :
    ((proxySet objPub "value" (some "v1")).1.props
        = recordSet objPub.props "value" (some "v1") ∧
      (proxySet objPub "value" (some "v1")).1.fake = objPub.fake ∧
      (proxySet objPub "value" (some "v1")).2
        = [Msg.update objPub.id "value" (some "v1")]) ∧
    ((proxySet objPub "custom" (some "v2")).1.props = objPub.props ∧
      (proxySet objPub "custom" (some "v2")).1.fake
        = recordSet objPub.fake "custom" (some "v2") ∧
      (proxySet objPub "custom" (some "v2")).2 = [] ∧
      proxyGet (proxySet objPub "custom" (some "v2")).1 "custom"
        = some (some "v2")) :=
  ⟨(proxy_set_policy objPub "value" (some "v1") rfl).1 (by decide),
   (proxy_set_policy objPub "custom" (some "v2") rfl).2 (by decide)⟩

/-- **C10**: whenever code generation terminates (the random-name search
returns a name), the dispatch-event entry-point name is not a substring
of any of the document's action script sources, so no script-supplied
string can contain or equal it. -/
theorem dispatch_name_not_in_scripts (candidates : List String)
    (objects : List (String × List FieldDesc)) (nameString : String)
    (h : generateCodeDispatchName candidates objects = some nameString) :
    ∀ action ∈ allActionsOf objects,
      jsIncludes action nameString = false := by
  intro action ha
  simp only [generateCodeDispatchName, generateRandomString] at h
  have h2 := List.find?_some h
  rw [List.all_eq_true] at h2
  have h3 := h2 action ha
  simpa using h3

/-- Witness for C10: the candidate `"abc"` occurs inside an action script
and is rejected; the accepted name `"zq"` occurs in no script. -/
theorem dispatch_name_not_in_scripts_witness :
    generateCodeDispatchName cand10 objs10 = some "zq" ∧
      ∀ action ∈ allActionsOf objs10, jsIncludes action "zq" = false :=
  ⟨by decide,
   dispatch_name_not_in_scripts cand10 objs10 "zq" (by decide)⟩

/-! ## C7: number-format idempotence

Counterexample first: with the default separator preset (style `"0"`,
thousands separator `","`), `1234.5` formats to `"1,234.50"`, but
`parseFloat` stops at the comma and reads back `1`, which formats to
`"1.00"` — so `formatNumber (parseFloat (formatNumber v)) ≠
formatNumber v`. -/

/-- **C7 counterexample**: idempotence fails at `v = 1234.5`, `n = 2` with
the default separators. -/
theorem printf_idempotence_fails :
    printfFloatConv "0" {} none 2 (2469 / 2) = "1,234.50" ∧
    jsParseFloat "1,234.50" = some 1 ∧
    printfFloatConv "0" {} none 2 1 = "1.00" ∧
    ("1.00" : String) ≠ "1,234.50" := by
  refine ⟨?_, ?_, ?_, by decide⟩
  · have h1 : jsTrunc (2469 / 2 : ℚ) = 1234 := by
      norm_num [jsTrunc]
    have h2 : jsToFixed (2469 / 2 - ((1234 : ℤ) : ℚ)) 2 = "0.50" := by
      have h3 : ⌊(2469 / 2 - ((1234 : ℤ) : ℚ)) * (10 : ℚ) ^ 2 + 1 / 2⌋
          = (50 : ℤ) := by norm_num
      simp only [jsToFixed, h3]
      decide
    simp only [printfFloatConv, h1, h2]
    decide
  · have ha : jsParseFloat "1,234.50"
        = some (((1 : ℕ) : ℚ) + ((0 : ℕ) : ℚ) / (10 : ℚ) ^ (0 : ℕ)) := rfl
    rw [ha]
    norm_num
  · have h1 : jsTrunc (1 : ℚ) = 1 := by norm_num [jsTrunc]
    have h2 : jsToFixed ((1 : ℚ) - ((1 : ℤ) : ℚ)) 2 = "0.00" := by
      have h3 : ⌊((1 : ℚ) - ((1 : ℤ) : ℚ)) * (10 : ℚ) ^ 2 + 1 / 2⌋
          = (0 : ℤ) := by norm_num
      simp only [jsToFixed, h3]
      decide
    simp only [printfFloatConv, h1, h2]
    decide

/-! Support lemmas about decimal digit strings. -/

theorem strDataAppend (a b : String) : (a ++ b).data = a.data ++ b.data :=
  rfl

theorem digitChar_isDigit (d : Nat) (h : d < 10) :
    (digitChar d).isDigit = true := by
  interval_cases d <;> decide

theorem digitChar_sub (d : Nat) (h : d < 10) :
    (digitChar d).toNat - 48 = d := by
  interval_cases d <;> decide

theorem natDigitsGo_all_digit :
    ∀ (fuel x : Nat), x < fuel →
      ∀ c ∈ natDigitsGo fuel x, c.isDigit = true := by
  intro fuel
  induction fuel with
  | zero => intro x hx; omega
  | succ f ih =>
    intro x hx c hc
    by_cases h10 : x < 10
    · simp only [natDigitsGo, h10, if_true, List.mem_singleton] at hc
      subst hc
      exact digitChar_isDigit x h10
    · simp only [natDigitsGo, h10, if_false, List.mem_append,
        List.mem_singleton] at hc
      rcases hc with hc | hc
      · exact ih (x / 10) (by omega) c hc
      · subst hc
        exact digitChar_isDigit (x % 10) (Nat.mod_lt x (by omega))

theorem digitsVal_append_one (l : List Char) (c : Char) :
    digitsVal (l ++ [c]) = 10 * digitsVal l + (c.toNat - 48) := by
  simp [digitsVal, List.foldl_append]

theorem natDigitsGo_val :
    ∀ (fuel x : Nat), x < fuel → digitsVal (natDigitsGo fuel x) = x := by
  intro fuel
  induction fuel with
  | zero => intro x hx; omega
  | succ f ih =>
    intro x hx
    by_cases h10 : x < 10
    · simp only [natDigitsGo, h10, if_true]
      simp [digitsVal, digitChar_sub x h10]
    · simp only [natDigitsGo, h10, if_false]
      rw [digitsVal_append_one, ih (x / 10) (by omega),
        digitChar_sub (x % 10) (Nat.mod_lt x (by omega))]
      omega

theorem natDigitsGo_length :
    ∀ (fuel x l : Nat), x < fuel → 1 ≤ l → x < 10 ^ l →
      (natDigitsGo fuel x).length ≤ l := by
  intro fuel
  induction fuel with
  | zero => intro x l hx; omega
  | succ f ih =>
    intro x l hx hl hxl
    by_cases h10 : x < 10
    · simp only [natDigitsGo, h10, if_true, List.length_singleton]
      omega
    · simp only [natDigitsGo, h10, if_false, List.length_append,
        List.length_singleton]
      have hl2 : 2 ≤ l := by
        by_contra hcon
        have : l = 1 := by omega
        subst this
        simp at hxl
        omega
      have hdiv : x / 10 < 10 ^ (l - 1) := by
        have h1 : 10 ^ l = 10 ^ (l - 1) * 10 := by
          rw [← pow_succ]
          congr 1
          omega
        rw [h1] at hxl
        omega
      have := ih (x / 10) (l - 1) (by omega) (by omega) hdiv
      omega

theorem natDigits_all_digit (x : Nat) :
    ∀ c ∈ natDigits x, c.isDigit = true :=
  natDigitsGo_all_digit (x + 1) x (Nat.lt_succ_self x)

theorem digitsVal_natDigits (x : Nat) : digitsVal (natDigits x) = x :=
  natDigitsGo_val (x + 1) x (Nat.lt_succ_self x)

theorem natDigits_length (x l : Nat) (hl : 1 ≤ l) (hxl : x < 10 ^ l) :
    (natDigits x).length ≤ l :=
  natDigitsGo_length (x + 1) x l (Nat.lt_succ_self x) hl hxl

theorem natDigits_ne_nil (x : Nat) : natDigits x ≠ [] := by
  unfold natDigits natDigitsGo
  by_cases h10 : x < 10 <;> simp [h10]

theorem digitsVal_replicate_zero (j : Nat) (l : List Char) :
    digitsVal (List.replicate j '0' ++ l) = digitsVal l := by
  induction j with
  | zero => rfl
  | succ k ih =>
    simp only [List.replicate_succ, List.cons_append]
    show digitsVal (List.replicate k '0' ++ l) = digitsVal l
    exact ih

theorem takeWhile_append_stop (p : Char → Bool) (l₁ : List Char) (c : Char)
    (l₂ : List Char) (h1 : ∀ x ∈ l₁, p x = true) (hc : p c = false) :
    List.takeWhile p (l₁ ++ c :: l₂) = l₁ := by
  induction l₁ with
  | nil => simp [List.takeWhile_cons, hc]
  | cons a t ih =>
    have ha : p a = true := h1 a (List.mem_cons_self a t)
    simp only [List.cons_append, List.takeWhile_cons, ha, if_true]
    rw [ih fun x hx => h1 x (List.mem_cons_of_mem a hx)]

theorem dropWhile_append_stop (p : Char → Bool) (l₁ : List Char) (c : Char)
    (l₂ : List Char) (h1 : ∀ x ∈ l₁, p x = true) (hc : p c = false) :
    List.dropWhile p (l₁ ++ c :: l₂) = c :: l₂ := by
  induction l₁ with
  | nil => simp [List.dropWhile_cons, hc]
  | cons a t ih =>
    have ha : p a = true := h1 a (List.mem_cons_self a t)
    simp only [List.cons_append, List.dropWhile_cons, ha, if_true]
    exact ih fun x hx => h1 x (List.mem_cons_of_mem a hx)

theorem takeWhile_all (p : Char → Bool) (l : List Char)
    (h : ∀ x ∈ l, p x = true) : List.takeWhile p l = l := by
  induction l with
  | nil => rfl
  | cons a t ih =>
    simp only [List.takeWhile_cons, h a (List.mem_cons_self a t), if_true]
    rw [ih fun x hx => h x (List.mem_cons_of_mem a hx)]

theorem dropWhile_of_head (p : Char → Bool) (c : Char) (l : List Char)
    (h : p c = false) : List.dropWhile p (c :: l) = c :: l := by
  simp [List.dropWhile_cons, h]

theorem digit_not_special (c : Char) (h : c.isDigit = true) :
    c ≠ ' ' ∧ c ≠ '-' ∧ c ≠ '+' := by
  refine ⟨?_, ?_, ?_⟩ <;> intro he <;> subst he <;> exact absurd h (by decide)

theorem natDigits_lt10 (x : Nat) (h : x < 10) :
    natDigits x = [digitChar x] := by
  simp [natDigits, natDigitsGo, h]

theorem strAssoc (a b c : String) : a ++ b ++ c = a ++ (b ++ c) := by
  cases a with
  | mk da =>
    cases b with
    | mk db =>
      cases c with
      | mk dc =>
        show String.mk ((da ++ db) ++ dc) = String.mk (da ++ (db ++ dc))
        rw [List.append_assoc]

/-- The data of `natToString T ++ "." ++ padLeft '0' n (natToString r)`. -/
theorem formatted_data (T r n : Nat) :
    (natToString T ++ "." ++ padLeft '0' n (natToString r)).data
      = natDigits T ++ '.' ::
          (List.replicate (n - (natDigits r).length) '0' ++ natDigits r) := by
  simp [strDataAppend, natToString, padLeft]

/-- `jsToFixed` on a nonnegative rational, in terms of the rounded
numerator. -/
theorem jsToFixed_nonneg (q : ℚ) (f : Nat) (hq : 0 ≤ q) :
    jsToFixed q f
      = natToString ((⌊q * (10 : ℚ) ^ f + 1 / 2⌋).toNat / 10 ^ f) ++ "." ++
        padLeft '0' f
          (natToString ((⌊q * (10 : ℚ) ^ f + 1 / 2⌋).toNat % 10 ^ f)) := by
  have hk : 0 ≤ ⌊q * (10 : ℚ) ^ f + 1 / 2⌋ :=
    Int.floor_nonneg.mpr (by positivity)
  have habs : (⌊q * (10 : ℚ) ^ f + 1 / 2⌋).natAbs
      = (⌊q * (10 : ℚ) ^ f + 1 / 2⌋).toNat := by omega
  simp only [jsToFixed, habs]
  rw [if_neg (by omega)]

/-- The formatted output of a style-1 (no thousands separator) `f`
conversion of a nonnegative value: integer digits, a point, and exactly
`n` fraction digits obtained from the rounded scaled fractional part. -/
theorem printfFloatConv_style1 (v : ℚ) (hv : 0 ≤ v) (n : Nat) (hn : 1 ≤ n) :
    printfFloatConv "1" {} none n v
      = natToString (⌊v⌋).toNat ++ "." ++
        padLeft '0' n
          (natToString
            ((⌊(v - ((⌊v⌋ : ℤ) : ℚ)) * (10 : ℚ) ^ n + 1 / 2⌋).toNat
              % 10 ^ n)) := by
  have htr : jsTrunc v = ⌊v⌋ := if_neg (not_lt.mpr hv)
  have hfr0 : (0 : ℚ) ≤ v - ((⌊v⌋ : ℤ) : ℚ) := sub_nonneg.mpr (Int.floor_le v)
  simp only [printfFloatConv, htr, sepPresets,
    jsToFixed_nonneg _ _ hfr0]
  set m := (⌊(v - ((⌊v⌋ : ℤ) : ℚ)) * (10 : ℚ) ^ n + 1 / 2⌋).toNat with hm
  have h10 : 0 < 10 ^ n := Nat.pow_pos (by omega)
  have hkle : ⌊(v - ((⌊v⌋ : ℤ) : ℚ)) * (10 : ℚ) ^ n + 1 / 2⌋
      ≤ ((10 ^ n : ℕ) : ℤ) := by
    have hfr1 : v - ((⌊v⌋ : ℤ) : ℚ) < 1 := by
      have h := Int.lt_floor_add_one v
      push_cast at h ⊢
      linarith
    have hp : (0 : ℚ) < (10 : ℚ) ^ n := by positivity
    have hlt : (v - ((⌊v⌋ : ℤ) : ℚ)) * (10 : ℚ) ^ n + 1 / 2
        < ((((10 ^ n : ℕ) : ℤ) + 1 : ℤ) : ℚ) := by
      push_cast
      nlinarith
    have h2 := Int.floor_lt.mpr hlt
    omega
  have hmle : m ≤ 10 ^ n := by omega
  have hdivlt : m / 10 ^ n < 10 := by
    have h5 : m / 10 ^ n ≤ 10 ^ n / 10 ^ n := Nat.div_le_div_right hmle
    rw [Nat.div_self h10] at h5
    omega
  have hmodlt : m % 10 ^ n < 10 ^ n := Nat.mod_lt _ h10
  have hdlen : (natDigits (m % 10 ^ n)).length ≤ n :=
    natDigits_length _ n hn hmodlt
  have hlen : (natToString (m / 10 ^ n) ++ "." ++
      padLeft '0' n (natToString (m % 10 ^ n))).length = n + 2 := by
    show (natToString (m / 10 ^ n) ++ "." ++
      padLeft '0' n (natToString (m % 10 ^ n))).data.length = n + 2
    rw [formatted_data, natDigits_lt10 _ hdivlt]
    simp only [List.length_append, List.length_cons, List.length_singleton,
      List.length_nil, List.length_replicate]
    omega
  have hdrop : (⟨List.drop 2 (natToString (m / 10 ^ n) ++ "." ++
        padLeft '0' n (natToString (m % 10 ^ n))).data⟩ : String)
      = padLeft '0' n (natToString (m % 10 ^ n)) := by
    rw [formatted_data, natDigits_lt10 _ hdivlt]
    rfl
  have hnneg : ¬ ⌊v⌋ < 0 := not_lt.mpr (Int.floor_nonneg.mpr hv)
  rw [if_neg hnneg]
  simp only [Bool.false_eq_true, if_false]
  have hgrp : ¬(("" : String) ≠ "" ∧ (⌊v⌋ ≥ 1000)) := by simp
  rw [if_neg hgrp, hlen, if_pos (by omega), hdrop]
  have hempty : ("" : String) ++ natToString (⌊v⌋).toNat
      = natToString (⌊v⌋).toNat := rfl
  rw [hempty, strAssoc]

theorem signRest_digit (c : Char) (l : List Char) (hcm : c ≠ '-')
    (hcp : c ≠ '+') :
    (if (c :: l).head? = some '-' then ((true : Bool), (c :: l).tail)
     else if (c :: l).head? = some '+' then ((false : Bool), (c :: l).tail)
     else ((false : Bool), c :: l)) = ((false : Bool), c :: l) := by
  simp [hcm, hcp]

theorem fsRest_dot (l : List Char) :
    (if (('.' :: l).head? = some '.') then
      ('.' :: l).tail.takeWhile Char.isDigit else [])
      = l.takeWhile Char.isDigit := by
  simp

/-- Parsing the formatted output recovers exactly the displayed value. -/
theorem jsParseFloat_formula (T r n : Nat) (hn : 1 ≤ n) (hr : r < 10 ^ n) :
    jsParseFloat (natToString T ++ "." ++ padLeft '0' n (natToString r))
      = some ((T : ℚ) + (r : ℚ) / (10 : ℚ) ^ n) := by
  have hdig := natDigits_all_digit T
  have hdigr := natDigits_all_digit r
  have hrlen : (natDigits r).length ≤ n := natDigits_length r n hn hr
  have hpadall : ∀ x ∈ List.replicate (n - (natDigits r).length) '0'
      ++ natDigits r, Char.isDigit x = true := by
    intro x hx
    rcases List.mem_append.mp hx with hx | hx
    · rw [List.eq_of_mem_replicate hx]; decide
    · exact hdigr x hx
  rcases hT : natDigits T with _ | ⟨c, t⟩
  · exact absurd hT (natDigits_ne_nil T)
  · have hcdig : c.isDigit = true := by
      have hmem : c ∈ natDigits T := by
        rw [hT]; exact List.mem_cons_self c t
      exact hdig c hmem
    obtain ⟨hcs, hcm, hcp⟩ := digit_not_special c hcdig
    have htall : ∀ x ∈ c :: t, Char.isDigit x = true := by
      rw [← hT]; exact hdig
    simp only [jsParseFloat, formatted_data, hT]
    rw [List.cons_append, dropWhile_of_head _ _ _ (decide_eq_false hcs)]
    rw [signRest_digit c _ hcm hcp]
    dsimp only
    rw [← List.cons_append,
      takeWhile_append_stop _ (c :: t) '.' _ htall (by decide),
      dropWhile_append_stop _ (c :: t) '.' _ htall (by decide)]
    rw [fsRest_dot, takeWhile_all _ _ hpadall]
    rw [if_neg (show ¬((c :: t) = [] ∧
      List.replicate (n - (natDigits r).length) '0' ++ natDigits r = [])
      from by simp)]
    simp only [Bool.false_eq_true, if_false]
    rw [← hT, digitsVal_natDigits]
    rw [digitsVal_replicate_zero, digitsVal_natDigits]
    simp only [List.length_append, List.length_replicate,
      Nat.sub_add_cancel hrlen]

/-- **C7 amended**: with a conversion specification whose output contains
no thousands separator and a `.` decimal separator (separator style 1), no
sign/padding flags and an explicit precision of at least one digit, number
formatting via `util.printf` is idempotent on its own output for every
nonnegative value: re-parsing the formatted string and formatting it again
reproduces the same string. -/
theorem printf_idempotent_ungrouped (v : ℚ) (hv : 0 ≤ v) (n : Nat)
    (hn : 1 ≤ n) :
    (jsParseFloat (printfFloatConv "1" {} none n v)).map
        (printfFloatConv "1" {} none n)
      = some (printfFloatConv "1" {} none n v) := by
  have h10q : (0 : ℚ) < (10 : ℚ) ^ n := by positivity
  have h10 : 0 < 10 ^ n := Nat.pow_pos (by omega)
  rw [printfFloatConv_style1 v hv n hn]
  set T := (⌊v⌋).toNat with hT
  set r := (⌊(v - ((⌊v⌋ : ℤ) : ℚ)) * (10 : ℚ) ^ n + 1 / 2⌋).toNat % 10 ^ n
    with hrdef
  have hrlt : r < 10 ^ n := Nat.mod_lt _ h10
  rw [jsParseFloat_formula T r n hn hrlt, Option.map_some']
  congr 1
  have hv' : (0 : ℚ) ≤ (T : ℚ) + (r : ℚ) / (10 : ℚ) ^ n := by positivity
  rw [printfFloatConv_style1 _ hv' n hn]
  have hfrac : (0 : ℚ) ≤ (r : ℚ) / (10 : ℚ) ^ n := by positivity
  have hfrac1 : (r : ℚ) / (10 : ℚ) ^ n < 1 := by
    rw [div_lt_one h10q]
    exact_mod_cast hrlt
  have hfl : ⌊(T : ℚ) + (r : ℚ) / (10 : ℚ) ^ n⌋ = (T : ℤ) := by
    rw [show ((T : ℚ)) = (((T : ℤ) : ℚ)) by push_cast; ring,
      Int.floor_int_add,
      Int.floor_eq_zero_iff.mpr ⟨hfrac, hfrac1⟩]
    ring
  have hmul : (r : ℚ) / (10 : ℚ) ^ n * (10 : ℚ) ^ n = (r : ℚ) :=
    div_mul_cancel₀ _ (ne_of_gt h10q)
  have hk' : ⌊((T : ℚ) + (r : ℚ) / (10 : ℚ) ^ n
      - ((⌊(T : ℚ) + (r : ℚ) / (10 : ℚ) ^ n⌋ : ℤ) : ℚ)) * (10 : ℚ) ^ n
      + 1 / 2⌋ = (r : ℤ) := by
    have hx : (T : ℚ) + (r : ℚ) / (10 : ℚ) ^ n
        - ((⌊(T : ℚ) + (r : ℚ) / (10 : ℚ) ^ n⌋ : ℤ) : ℚ)
        = (r : ℚ) / (10 : ℚ) ^ n := by
      rw [hfl]
      push_cast
      ring
    rw [hx, hmul, show ((r : ℚ)) = (((r : ℤ) : ℚ)) by push_cast; ring,
      Int.floor_int_add]
    norm_num
  rw [hk', hfl, Int.toNat_natCast, Int.toNat_natCast,
    Nat.mod_eq_of_lt hrlt]

/-- Witness for C7's amended claim at `v = 1234.5`, `n = 2`. -/
theorem printf_idempotent_ungrouped_witness :
    (jsParseFloat (printfFloatConv "1" {} none 2 (2469 / 2))).map
        (printfFloatConv "1" {} none 2)
      = some (printfFloatConv "1" {} none 2 (2469 / 2)) :=
  printf_idempotent_ungrouped (2469 / 2) (by norm_num) 2 (by norm_num)

end PdfScripting
